import Mathlib

/-!
Verification of the IFM ingestion/filtering core against its specification.

The definitions below are shallow embeddings of the Python source:
  * `src/modules/fund_filter.py` (fund return decomposition and filters),
  * `src/modules/stock_filter.py` (legacy stock filter),
  * `src/modules/stock_data/base_data.py` (identifier normalization),
  * `src/modules/stock_data/stock_data_manager.py` (cache and filter engine).
Machine floats are modelled by `ℚ`; dataframe cells that may be NaN/None are
modelled by `Option ℚ`; Python dicts are modelled by association lists.
-/

namespace IFM

/-- A fund row after the `pct2float` conversion step of `fund_filter`
(`fund_filter.py` lines 73-85): each trailing-window return column
(`近1周, 近1月, 近3月, 近6月, 近1年, 近2年, 近3年`) is either a number
(percentage points) or missing (None/NaN). -/
structure FundRow where
  r1w : Option ℚ  -- 近1周_数值
  r1m : Option ℚ  -- 近1月_数值
  r3m : Option ℚ  -- 近3月_数值
  r6m : Option ℚ  -- 近6月_数值
  r1y : Option ℚ  -- 近1年_数值
  r2y : Option ℚ  -- 近2年_数值
  r3y : Option ℚ  -- 近3年_数值
deriving DecidableEq, Repr

/-- `calculate_annual_returns` year1 (`fund_filter.py` lines 96-105):
use 近1年 directly; otherwise annualize the longest available shorter
window (近6月 × 2, else 近3月 × 4, else 近1月 × 12); otherwise None. -/
def calcYear1 (row : FundRow) : Option ℚ :=
  match row.r1y with
  | some v => some v
  | none =>
    match row.r6m with
    | some v => some (v * 2)
    | none =>
      match row.r3m with
      | some v => some (v * 4)
      | none =>
        match row.r1m with
        | some v => some (v * 12)
        | none => none

/-- `calculate_annual_returns` year2 (`fund_filter.py` lines 107-116):
when both 近2年 and 近1年 are present, `total_2y = 1 + 近2年/100`,
`total_1y = 1 + 近1年/100`, and if `total_1y ≠ 0` then
`year2 = (total_2y / total_1y - 1) * 100`. -/
def calcYear2 (row : FundRow) : Option ℚ :=
  match row.r2y, row.r1y with
  | some v2, some v1 =>
    if 1 + v1 / 100 ≠ 0 then some (((1 + v2 / 100) / (1 + v1 / 100) - 1) * 100)
    else none
  | _, _ => none

/-- `calculate_annual_returns` year3 (`fund_filter.py` lines 118-127):
when both 近3年 and 近2年 are present, `total_3y = 1 + 近3年/100`,
`total_2y = 1 + 近2年/100`, and if `total_2y ≠ 0` then
`year3 = (total_3y / total_2y - 1) * 100`. -/
def calcYear3 (row : FundRow) : Option ℚ :=
  match row.r3y, row.r2y with
  | some v3, some v2 =>
    if 1 + v2 / 100 ≠ 0 then some (((1 + v3 / 100) / (1 + v2 / 100) - 1) * 100)
    else none
  | _, _ => none

/-- `calculate_listed_years` (`fund_filter.py` lines 159-167): the first
window (checked from longest to shortest, the dict iteration order of
`period_years`) holding a value determines the listing estimate. -/
def listedYears (row : FundRow) : ℚ :=
  match row.r3y with
  | some _ => 3
  | none =>
    match row.r2y with
    | some _ => 2
    | none =>
      match row.r1y with
      | some _ => 1
      | none =>
        match row.r6m with
        | some _ => 1 / 2
        | none =>
          match row.r3m with
          | some _ => 1 / 4
          | none =>
            match row.r1m with
            | some _ => 1 / 12
            | none =>
              match row.r1w with
              | some _ => 1 / 52
              | none => 0

/-- `有效年数` (`fund_filter.py` line 172): `min(int(x) if x >= 1 else 0, 3)`. -/
def validYears (row : FundRow) : ℕ :=
  min (if 1 ≤ listedYears row then (⌊listedYears row⌋).toNat else 0) 3

/-- One row of the consecutive-return check (`fund_filter.py` lines 204-221):
year1 must be present and not below the threshold; year2 (resp. year3) is
checked the same way when `有效年数 ≥ 2` (resp. `≥ 3`). -/
def consecRowValid (t : ℚ) (row : FundRow) : Bool :=
  (match calcYear1 row with
   | some v => decide (¬ v < t)
   | none => false) &&
  (if 2 ≤ validYears row then
    match calcYear2 row with
    | some v => decide (¬ v < t)
    | none => false
   else true) &&
  (if 3 ≤ validYears row then
    match calcYear3 row with
    | some v => decide (¬ v < t)
    | none => false
   else true)

/-- The consecutive-return filter stage (`fund_filter.py` lines 197-223):
applied only when `min_consecutive_return > 0`; first drops rows with
`上市年限 < 1`, then keeps the rows passing `consecRowValid`. -/
def fundConsecutiveStage (t : ℚ) (rows : List FundRow) : List FundRow :=
  if 0 < t then
    (rows.filter fun r => decide (1 ≤ listedYears r)).filter (consecRowValid t)
  else rows

/-- Modelled from the spec's words (section 4.7, threshold filter policy),
for comparison with the source's `consecRowValid`: a fund passes iff every
year among year1/year2/year3 for which a return was computed meets the
threshold, absent years being non-disqualifying. -/
def specConsecutivePass (t : ℚ) (row : FundRow) : Bool :=
  (match calcYear1 row with
   | some v => decide (t ≤ v)
   | none => true) &&
  (match calcYear2 row with
   | some v => decide (t ≤ v)
   | none => true) &&
  (match calcYear3 row with
   | some v => decide (t ≤ v)
   | none => true)

/-- Modelled from the spec's words (section 4.7):
`year2 = (1+trailing_2y)² / (1+trailing_1y) − 1` expressed as a percentage,
with division by 100 before compounding and multiplication by 100 after. -/
def specYear2 (t1 t2 : ℚ) : ℚ :=
  ((1 + t2 / 100) ^ 2 / (1 + t1 / 100) - 1) * 100

/-- Modelled from the spec's words (section 4.7):
`year3 = (1+trailing_3y)³ / (1+trailing_2y)² − 1` as a percentage. -/
def specYear3 (t2 t3 : ℚ) : ℚ :=
  ((1 + t3 / 100) ^ 3 / (1 + t2 / 100) ^ 2 - 1) * 100

/-- A fund row used in several concrete statements: 近6月 = 2.5,
近2年 = 0, 近3年 = 6, all other windows absent.  Its decomposed returns
are `year1 = 5` (annualized from 近6月), `year2 = None` (近1年 absent),
`year3 = 6`. -/
def rowY2Gap : FundRow := ⟨none, none, none, some (5 / 2), none, some 0, some 6⟩

/-- A fund row passing every per-year check: 近1年 = 100, 近2年 = 300,
近3年 = 700, so `year1 = year2 = year3 = 100`. -/
def rowAllPass : FundRow := ⟨none, none, none, none, some 100, some 300, some 700⟩

/-- Helper: unfolding of the per-row consecutive-return check. -/
theorem consecRowValid_iff (t : ℚ) (row : FundRow) :
    consecRowValid t row = true ↔
      (∃ v, calcYear1 row = some v ∧ t ≤ v) ∧
      (2 ≤ validYears row → ∃ v, calcYear2 row = some v ∧ t ≤ v) ∧
      (3 ≤ validYears row → ∃ v, calcYear3 row = some v ∧ t ≤ v) := by
  unfold consecRowValid
  rcases h1 : calcYear1 row with _ | v1 <;>
    rcases h2 : calcYear2 row with _ | v2 <;>
      rcases h3 : calcYear3 row with _ | v3 <;>
        by_cases hv2 : 2 ≤ validYears row <;>
          by_cases hv3 : 3 ≤ validYears row <;>
            simp [hv2, hv3, not_lt, and_assoc]

end IFM

namespace IFM

/-- C1 counterexample: the fund row with `year1 = 5`, `year2 = None`,
`year3 = 6` has every computed year meeting threshold 4 (so the spec's
consecutive-return policy would retain it), yet the source's
consecutive-return filter stage drops it: with 近3年 present the row has
`有效年数 = 3`, and the missing `year2` fails the `pd.isna` check of
`fund_filter.py` line 213. -/
theorem fund_consecutive_counterexample :
    calcYear1 rowY2Gap = some 5 ∧
    calcYear2 rowY2Gap = none ∧
    calcYear3 rowY2Gap = some 6 ∧
    specConsecutivePass 4 rowY2Gap = true ∧
    fundConsecutiveStage 4 [rowY2Gap] = [] := by
  refine ⟨?_, ?_, ?_, ?_, ?_⟩ <;>
    norm_num [rowY2Gap, calcYear1, calcYear2, calcYear3, specConsecutivePass,
      fundConsecutiveStage, consecRowValid, listedYears, validYears]

/-- C1 (amended): for a positive threshold `t`, the consecutive-return
filter retains a fund row iff it has at least one year of listing history
(`上市年限 ≥ 1`), its `year1` is computed and meets `t`, and for each of
years 2 and 3 that lies within its valid-year span (`有效年数`), the
corresponding return is computed and meets `t`.  A year with no computed
return inside that span disqualifies the fund (it is not treated as
non-disqualifying), so the row `year1=5, year2=None, year3=6` fails
threshold 4, and a fund with `year1=3` fails threshold 4 regardless of
its other years. -/
theorem fund_consecutive_filter_amended (t : ℚ) (rows : List FundRow)
    (row : FundRow) (ht : 0 < t) :
    row ∈ fundConsecutiveStage t rows ↔
      row ∈ rows ∧ 1 ≤ listedYears row ∧
      (∃ v, calcYear1 row = some v ∧ t ≤ v) ∧
      (2 ≤ validYears row → ∃ v, calcYear2 row = some v ∧ t ≤ v) ∧
      (3 ≤ validYears row → ∃ v, calcYear3 row = some v ∧ t ≤ v) := by
  simp only [fundConsecutiveStage, if_pos ht, List.mem_filter,
    decide_eq_true_eq, consecRowValid_iff]
  tauto

/-- C1 witness: instantiating the amended characterization at threshold 4
on a concrete passing row. -/
theorem fund_consecutive_filter_amended_witness :
    rowAllPass ∈ fundConsecutiveStage 4 [rowAllPass] := by
  refine (fund_consecutive_filter_amended 4 [rowAllPass] rowAllPass
    (by norm_num)).mpr ⟨List.mem_singleton.mpr rfl, ?_, ⟨100, ?_, by norm_num⟩,
      fun _ => ⟨100, ?_, by norm_num⟩, fun _ => ⟨100, ?_, by norm_num⟩⟩ <;>
    norm_num [rowAllPass, listedYears, calcYear1, calcYear2, calcYear3]

/-- C2 counterexample: with trailing returns `近1年 = 0` and `近2年 = 100`
(percentage points), the source computes
`year2 = ((1+100/100)/(1+0/100) − 1)·100 = 100`, while the spec's squared
formula `(1+trailing_2y)²/(1+trailing_1y) − 1` gives `300`. -/
theorem fund_year2_formula_counterexample :
    calcYear2 ⟨none, none, none, none, some 0, some 100, none⟩ = some 100 ∧
    specYear2 0 100 = 300 ∧ (100 : ℚ) ≠ 300 := by
  norm_num [calcYear2, specYear2]

/-- C2 (amended): when both the trailing 1-year and 2-year returns are
present and `1 + trailing_1y/100 ≠ 0`, the decomposer computes
`year2 = ((1+trailing_2y)/(1+trailing_1y) − 1)` as a percentage (values
divided by 100 before compounding, multiplied by 100 after) — the
cumulative growth factors are divided directly, not squared; equivalently
`(1+year1/100)·(1+year2/100) = 1+trailing_2y/100`.  Analogously, when
both the trailing 2-year and 3-year returns are present and
`1 + trailing_2y/100 ≠ 0`,
`year3 = ((1+trailing_3y)/(1+trailing_2y) − 1)·100`.  If either input of
a pair is absent, the corresponding year is not computed. -/
theorem fund_year_decompose_amended (row : FundRow) (v1 v2 v3 : ℚ) :
    (row.r1y = some v1 → row.r2y = some v2 → 1 + v1 / 100 ≠ 0 →
      calcYear2 row = some (((1 + v2 / 100) / (1 + v1 / 100) - 1) * 100) ∧
      ∀ y2, calcYear2 row = some y2 →
        (1 + v1 / 100) * (1 + y2 / 100) = 1 + v2 / 100) ∧
    (row.r2y = some v2 → row.r3y = some v3 → 1 + v2 / 100 ≠ 0 →
      calcYear3 row = some (((1 + v3 / 100) / (1 + v2 / 100) - 1) * 100) ∧
      ∀ y3, calcYear3 row = some y3 →
        (1 + v2 / 100) * (1 + y3 / 100) = 1 + v3 / 100) ∧
    ((row.r1y = none ∨ row.r2y = none) → calcYear2 row = none) ∧
    ((row.r2y = none ∨ row.r3y = none) → calcYear3 row = none) := by
  refine ⟨fun h1 h2 hne => ?_, fun h2 h3 hne => ?_, fun h => ?_, fun h => ?_⟩
  · have he : calcYear2 row = some (((1 + v2 / 100) / (1 + v1 / 100) - 1) * 100) := by
      simp [calcYear2, h1, h2, hne]
    refine ⟨he, fun y2 hy => ?_⟩
    rw [he, Option.some_inj] at hy
    subst hy
    have h100 : (100 : ℚ) + v1 ≠ 0 := by
      intro hc
      refine hne ?_
      have hv : v1 = -100 := by linarith
      rw [hv]; norm_num
    field_simp
    ring
  · have he : calcYear3 row = some (((1 + v3 / 100) / (1 + v2 / 100) - 1) * 100) := by
      simp [calcYear3, h2, h3, hne]
    refine ⟨he, fun y3 hy => ?_⟩
    rw [he, Option.some_inj] at hy
    subst hy
    have h100 : (100 : ℚ) + v2 ≠ 0 := by
      intro hc
      refine hne ?_
      have hv : v2 = -100 := by linarith
      rw [hv]; norm_num
    field_simp
    ring
  · rcases h with h | h
    · rcases hx : row.r2y with _ | w <;> simp [calcYear2, h, hx]
    · simp [calcYear2, h]
  · rcases h with h | h
    · simp [calcYear3, h]
    · rcases hx : row.r3y with _ | w <;> simp [calcYear3, h, hx]

/-- C2 witness: instantiating the amended decomposition on the concrete
trailing pair `近1年 = 10`, `近2年 = 21`, giving
`year2 = ((1.21)/(1.10) − 1)·100 = 10`. -/
theorem fund_year_decompose_amended_witness :
    calcYear2 ⟨none, none, none, none, some 10, some 21, none⟩ = some 10 := by
  have h := (fund_year_decompose_amended
    ⟨none, none, none, none, some 10, some 21, none⟩ 10 21 0).1 rfl rfl (by norm_num)
  rw [h.1]
  norm_num

/-- C10: for every fund row whose trailing 1-year return is absent, the
decomposer computes `year1` by linearly annualizing the longest available
shorter window in the fixed priority order 近6月 × 2, else 近3月 × 4,
else 近1月 × 12; if none of these windows has a value, `year1` is None. -/
theorem fund_year1_fallback (row : FundRow) (h : row.r1y = none) :
    (∀ v, row.r6m = some v → calcYear1 row = some (v * 2)) ∧
    (row.r6m = none → ∀ v, row.r3m = some v → calcYear1 row = some (v * 4)) ∧
    (row.r6m = none → row.r3m = none → ∀ v, row.r1m = some v →
      calcYear1 row = some (v * 12)) ∧
    (row.r6m = none → row.r3m = none → row.r1m = none → calcYear1 row = none) := by
  refine ⟨fun v hv => ?_, fun h6 v hv => ?_, fun h6 h3 v hv => ?_, fun h6 h3 h1 => ?_⟩ <;>
    simp_all [calcYear1]

/-- C10 witness: a row with only 近6月 = 3 annualizes to `year1 = 6`. -/
theorem fund_year1_fallback_witness :
    calcYear1 ⟨none, none, none, some 3, none, none, none⟩ = some (3 * 2) :=
  (fund_year1_fallback ⟨none, none, none, some 3, none, none, none⟩ rfl).1 3 rfl

/-! ### Identifier normalization

Shallow embedding of `extract_stock_codes` (`stock_filter.py` lines 31-85)
and `BaseData.clean_code` (`base_data.py` lines 79-120).  Raw cell values
are modelled as `List Char`. -/

/-- The apostrophe character removed by `str(value).replace("'", "")`. -/
def apos : Char := Char.ofNat 39

/-- Python's `str.strip()`: drop leading and trailing whitespace. -/
def pyStrip (l : List Char) : List Char :=
  ((l.dropWhile Char.isWhitespace).reverse.dropWhile Char.isWhitespace).reverse

/-- `str(value).replace("'", "")`. -/
def removeApos (l : List Char) : List Char :=
  l.filter (fun c => c ≠ apos)

/-- Python's `str.split(sep)` for a one-character separator: always
returns at least one (possibly empty) part. -/
def splitChar (c : Char) : List Char → List (List Char)
  | [] => [[]]
  | x :: xs =>
    match splitChar c xs with
    | [] => [[x]]
    | h :: t => if x = c then [] :: h :: t else (x :: h) :: t

/-- `re.sub(r'^(SH|SZ)', '', s)`: strip one leading exchange marker. -/
def stripSHSZ : List Char → List Char
  | 'S' :: 'H' :: rest => rest
  | 'S' :: 'Z' :: rest => rest
  | l => l

/-- `re.sub(r'\D', '', s)`: keep only the digits. -/
def digitsOf (l : List Char) : List Char :=
  l.filter Char.isDigit

/-- `str.zfill(6)`: left-pad with `'0'` to six characters. -/
def zfill6 (l : List Char) : List Char :=
  List.replicate (6 - l.length) '0' ++ l

/-- The `clean_code` value of `extract_stock_codes` just before the
digit-filtering step (`stock_filter.py` line 79), for the cleaned string
`s`: the dot branch takes the part before the first dot and strips the
exchange marker; the comma branch takes (strips, trims) the second part;
otherwise the whole string is taken as a bare code. -/
def cleanPart (s : List Char) : List Char :=
  if '.' ∈ s then
    stripSHSZ (splitChar '.' s).headI
  else if ',' ∈ s then
    if 1 < (splitChar ',' s).length then
      stripSHSZ (pyStrip (((splitChar ',' s).get? 1).getD []))
    else s
  else s

/-- The name recorded in `extract_stock_codes.stock_names` by the dot
branch (`stock_filter.py` lines 59-62), as a `(key, name)` pair: present
when the string has a dot part, the prefix remaining after
exchange-marker stripping is non-empty, and the trimmed suffix is
non-empty; the key is the prefix zero-padded before digit filtering. -/
def nameRecOf (s : List Char) : Option (List Char × List Char) :=
  if '.' ∈ s then
    let parts := splitChar '.' s
    let clean := stripSHSZ parts.headI
    match parts.get? 1 with
    | some p =>
      let nm := pyStrip p
      if clean ≠ [] ∧ nm ≠ [] then some (zfill6 clean, nm) else none
    | none => none
  else none

/-- The processing of one raw cell by `extract_stock_codes`
(`stock_filter.py` lines 48-83): the code added to the result set (if
any) and the `stock_names` entry recorded (if any). -/
def extractCodeName (raw : List Char) : Option (List Char) × Option (List Char × List Char) :=
  let s := pyStrip (removeApos raw)
  let digits := digitsOf (cleanPart s)
  (if digits ≠ [] then some (zfill6 digits) else none, nameRecOf s)

/-- The `normalize(raw) -> (code, name)` contract of spec section 4.1,
realized by `extract_stock_codes`: the returned name is the recorded name
when its key agrees with the returned code; with no code the raw value
contributes nothing. -/
def normalize (raw : List Char) : Option (List Char) × Option (List Char) :=
  match extractCodeName raw with
  | (some k, some (k2, nm)) => (some k, if k = k2 then some nm else none)
  | (some k, none) => (some k, none)
  | (none, _) => (none, none)

theorem mem_of_mem_pyStrip {a : Char} {l : List Char} (h : a ∈ pyStrip l) : a ∈ l := by
  unfold pyStrip at h
  rw [List.mem_reverse] at h
  have h2 := (List.dropWhile_sublist _).subset h
  rw [List.mem_reverse] at h2
  exact (List.dropWhile_sublist _).subset h2

theorem mem_of_mem_removeApos {a : Char} {l : List Char} (h : a ∈ removeApos l) :
    a ∈ l :=
  (List.mem_filter.mp h).1

theorem splitChar_ne_nil (c : Char) (l : List Char) : splitChar c l ≠ [] := by
  induction l with
  | nil => simp [splitChar]
  | cons x xs ih =>
    unfold splitChar
    rcases hr : splitChar c xs with _ | ⟨h, t⟩
    · simp
    · by_cases hx : x = c <;> simp [hx]

theorem mem_of_mem_splitChar {c a : Char} {l : List Char} :
    ∀ p ∈ splitChar c l, a ∈ p → a ∈ l := by
  induction l with
  | nil =>
    intro p hp ha
    simp [splitChar] at hp
    subst hp
    simp at ha
  | cons x xs ih =>
    intro p hp ha
    unfold splitChar at hp
    cases hr : splitChar c xs with
    | nil => exact absurd hr (splitChar_ne_nil c xs)
    | cons h t =>
      rw [hr] at hp
      dsimp only at hp
      by_cases hx : x = c
      · rw [if_pos hx] at hp
        rcases List.mem_cons.mp hp with rfl | hp2
        · simp at ha
        · exact List.mem_cons_of_mem _ (ih p (by rw [hr]; exact hp2) ha)
      · rw [if_neg hx] at hp
        rcases List.mem_cons.mp hp with rfl | hp2
        · rcases List.mem_cons.mp ha with rfl | ha'
          · exact List.mem_cons_self _ _
          · exact List.mem_cons_of_mem _
              (ih h (by rw [hr]; exact List.mem_cons_self _ _) ha')
        · exact List.mem_cons_of_mem _
            (ih p (by rw [hr]; exact List.mem_cons_of_mem _ hp2) ha)

theorem mem_of_mem_stripSHSZ {a : Char} {l : List Char} (h : a ∈ stripSHSZ l) :
    a ∈ l := by
  unfold stripSHSZ at h
  split at h
  · exact List.mem_cons_of_mem _ (List.mem_cons_of_mem _ h)
  · exact List.mem_cons_of_mem _ (List.mem_cons_of_mem _ h)
  · exact h

theorem headI_mem_of_ne_nil {l : List (List Char)} (h : l ≠ []) : l.headI ∈ l := by
  rcases l with _ | ⟨a, t⟩
  · exact absurd rfl h
  · simp [List.headI]

theorem mem_of_mem_cleanPart {a : Char} {s : List Char} (h : a ∈ cleanPart s) :
    a ∈ s := by
  unfold cleanPart at h
  split_ifs at h with h1 h2 h3
  · exact mem_of_mem_splitChar _
      (headI_mem_of_ne_nil (splitChar_ne_nil '.' s)) (mem_of_mem_stripSHSZ h)
  · rcases hg : (splitChar ',' s).get? 1 with _ | p
    · rw [hg] at h
      simp [pyStrip, stripSHSZ] at h
    · rw [hg] at h
      exact mem_of_mem_splitChar _ (List.get?_mem hg)
        (mem_of_mem_pyStrip (mem_of_mem_stripSHSZ h))
  · exact h
  · exact h

end IFM

namespace IFM

/-- C8: normalization of the four supported identifier shapes returns the
6-digit zero-padded code and, when a name is embedded after the dot, that
name; and for every raw string containing no digit characters it returns
`(None, None)` — a skip signal, not an error. -/
theorem identifier_normalize_shapes :
    normalize "SH600519.Name".toList = (some "600519".toList, some "Name".toList) ∧
    normalize "600519.Name".toList = (some "600519".toList, some "Name".toList) ∧
    normalize "600519".toList = (some "600519".toList, none) ∧
    normalize "rank,SH600519".toList = (some "600519".toList, none) ∧
    ∀ l : List Char, (∀ c ∈ l, c.isDigit = false) → normalize l = (none, none) := by
  refine ⟨by decide, by decide, by decide, by decide, fun l h => ?_⟩
  have hnil : digitsOf (cleanPart (pyStrip (removeApos l))) = [] := by
    refine List.filter_eq_nil_iff.mpr fun a ha => ?_
    have : a ∈ l :=
      mem_of_mem_removeApos (mem_of_mem_pyStrip (mem_of_mem_cleanPart ha))
    simp [h a this]
  have hfst : extractCodeName l = (none, nameRecOf (pyStrip (removeApos l))) := by
    unfold extractCodeName
    simp [hnil]
  unfold normalize
  rw [hfst]

/-- C8 witness: a raw value with no digits normalizes to `(none, none)`. -/
theorem identifier_normalize_shapes_witness :
    normalize "ABC".toList = (none, none) :=
  identifier_normalize_shapes.2.2.2.2 "ABC".toList (by decide)

/-! ### Instrument registry values and the filter engine

Shallow embedding of `StockDataManager.filter_stocks`
(`stock_data_manager.py` lines 286-406) and
`BaseStockData.safe_get_numeric` (`base_data.py` lines 122-153).
A Python dict cell is a number, a string, or NaN; dicts are association
lists. -/

/-- A raw cell value stored in `all_stock_info`. -/
inductive CellValue
  | num (q : ℚ)
  | str (s : List Char)
  | na
deriving DecidableEq, Repr

/-- `int(s)`-style digit accumulation for a digit string. -/
def parseNat (l : List Char) : ℕ :=
  l.foldl (fun acc c => acc * 10 + (c.toNat - 48)) 0

/-- An unsigned finite decimal literal `digits[.digits]`, the fragment of
Python `float(str)` syntax exercised by the data files. -/
def parseUnsigned (l : List Char) : Option ℚ :=
  match splitChar '.' l with
  | [a] => if a ≠ [] ∧ a.all Char.isDigit then some (parseNat a) else none
  | [a, b] =>
    if a.all Char.isDigit ∧ b.all Char.isDigit ∧ (a ≠ [] ∨ b ≠ []) then
      some ((parseNat a : ℚ) + (parseNat b : ℚ) / (10 : ℚ) ^ b.length)
    else none
  | _ => none

/-- Model of Python `float(value_str)` for finite decimal literals:
whitespace is stripped and an optional sign applied; anything else fails
(raising `ValueError`, which callers catch and turn into None). -/
def pyFloat (l : List Char) : Option ℚ :=
  match pyStrip l with
  | '-' :: rest => (parseUnsigned rest).map (fun q => -q)
  | '+' :: rest => parseUnsigned rest
  | t => parseUnsigned t

/-- `BaseStockData.safe_get_numeric` (`base_data.py` lines 122-153) with
`allow_percent = True`: NaN, `''` and `'-'` give None; numbers pass
through; strings are dequoted and trimmed, a `%` or `亿` marker is
removed, and the rest is parsed as a float, any failure giving None. -/
def safeGetNumeric (v : CellValue) : Option ℚ :=
  match v with
  | .na => none
  | .num q => some q
  | .str s =>
    if s = [] ∨ s = ['-'] then none
    else
      let t := pyStrip (removeApos s)
      if '%' ∈ t then pyFloat (t.filter (fun c => c ≠ '%'))
      else if '亿' ∈ t then pyFloat (t.filter (fun c => c ≠ '亿'))
      else pyFloat t

/-- One instrument's entry of `all_stock_info`: metric name → raw value. -/
abbrev StockInfo := List (String × CellValue)

/-- The whole `all_stock_info` registry: code → instrument entry. -/
abbrev AllStockInfo := List (String × StockInfo)

/-- Python `dict` lookup on an association list. -/
def dictGet (info : StockInfo) (k : String) : Option CellValue :=
  (info.find? (fun kv => kv.1 = k)).map (fun kv => kv.2)

/-- Lookup of one code's entry in `all_stock_info`. -/
def infoGet (allInfo : AllStockInfo) (code : String) : Option StockInfo :=
  (allInfo.find? (fun kv => kv.1 = code)).map (fun kv => kv.2)

/-- The ROE fallback chain of `StockDataManager.filter_stocks`
(`stock_data_manager.py` lines 348-358): try `平均ROE`, then — only if
that did not yield a number — `当前ROE`, then `ROE`. -/
def resolveROE (info : StockInfo) : Option ℚ :=
  let v1 :=
    match dictGet info "平均ROE" with
    | some v => safeGetNumeric v
    | none => none
  match v1 with
  | some q => some q
  | none =>
    let v2 :=
      match dictGet info "当前ROE" with
      | some v => safeGetNumeric v
      | none => none
    match v2 with
    | some q => some q
    | none =>
      match dictGet info "ROE" with
      | some v => safeGetNumeric v
      | none => none

/-- The ROE-threshold narrowing step of `StockDataManager.filter_stocks`
(`stock_data_manager.py` lines 340-363): keep a code iff its registry
entry exists and the chain-resolved ROE value is ≥ the threshold. -/
def roeFilterStep (r : ℚ) (allInfo : AllStockInfo) (codes : List String) :
    List String :=
  codes.filter (fun code =>
    match infoGet allInfo code with
    | some info =>
      match resolveROE info with
      | some v => decide (r ≤ v)
      | none => false
    | none => false)

/-- Modelled from the spec's words (claim C9): an instrument is retained
iff SOME value in the chain `平均ROE → 当前ROE → ROE` resolves to a
number ≥ the threshold. -/
def specChainSome (r : ℚ) (info : StockInfo) : Bool :=
  ["平均ROE", "当前ROE", "ROE"].any (fun k =>
    match dictGet info k with
    | some v =>
      match safeGetNumeric v with
      | some q => decide (r ≤ q)
      | none => false
    | none => false)

/-- The industry narrowing step of `StockDataManager.filter_stocks`
(`stock_data_manager.py` lines 390-400): applied only when the allow-list
is non-empty (Python truthiness); keep a code iff its registry entry
exists, carries a `行业` key, and that value is a member of the list. -/
def managerIndustryStep (f : List (List Char)) (allInfo : AllStockInfo)
    (codes : List String) : List String :=
  if f.isEmpty then codes
  else
    codes.filter (fun code =>
      match infoGet allInfo code with
      | some info =>
        match dictGet info "行业" with
        | some (.str ind) => decide (ind ∈ f)
        | some _ => false
        | none => false
      | none => false)

/-- The per-row industry check of the legacy `stock_filter`
(`stock_filter.py` lines 526-532): a row is skipped iff the allow-list is
non-empty AND the row's `所属行业` is non-empty AND that industry is not
in the list; the function returns whether the row is kept. -/
def legacyIndustryKeep (f : List (List Char)) (ind : List Char) : Bool :=
  if f ≠ [] ∧ ind ≠ [] ∧ ind ∉ f then false else true

/-- One step of the candidate-set fold of `StockDataManager.filter_stocks`
(`stock_data_manager.py` lines 330-335): an empty accumulator is taken to
mean "first iteration" and is replaced by the next category's set;
otherwise the sets are intersected. -/
def interStep (acc s : List String) : List String :=
  if acc.isEmpty then s else acc.filter (fun c => c ∈ s)

/-- The candidate-code computation of `StockDataManager.filter_stocks`
(`stock_data_manager.py` lines 320-335): a single category contributes
its whole set; several categories are folded with `interStep` starting
from the empty set. -/
def resultCodes (sets : List (List String)) : List String :=
  match sets with
  | [s] => s
  | _ => sets.foldl interStep []

/-- The loading loop and candidate-set computation of
`StockDataManager.filter_stocks` (`stock_data_manager.py` lines 307-338):
each request is a `(instance_key, load outcome)` pair where `none` means
the category failed to load (undefined type, missing file, empty file);
any failure makes the whole query return the empty table (`none` here),
otherwise the candidates are computed by `resultCodes`. -/
def candidateCodes (reqs : List (String × Option (List String))) :
    Option (List String) :=
  if reqs.any (fun r => r.2.isNone) then none
  else some (resultCodes (reqs.map (fun r => r.2.getD [])))

/-- Modelled from the spec's words (section 4.6, step 2): the exact
intersection of all requested categories' code sets. -/
def interAll (sets : List (List String)) : List String :=
  match sets with
  | [] => []
  | s :: rest => rest.foldl (fun acc t => acc.filter (fun c => c ∈ t)) s

/-- The registry entry used in the C9 counterexample: `平均ROE = 10`,
`当前ROE = 16`. -/
def infoAvgLow : StockInfo := [("平均ROE", .num 10), ("当前ROE", .num 16)]

end IFM

namespace IFM

/-- C9 counterexample: with threshold 15, an instrument whose `平均ROE`
resolves to 10 but whose `当前ROE` resolves to 16 is dropped by the
source (the chain stops at the first resolvable value, 10 < 15), even
though SOME value in the chain (16) meets the threshold as the claim
requires. -/
theorem roe_chain_counterexample :
    roeFilterStep 15 [("000001", infoAvgLow)] ["000001"] = [] ∧
    specChainSome 15 infoAvgLow = true := by
  constructor
  · have h : resolveROE infoAvgLow = some 10 := rfl
    simp only [roeFilterStep, infoGet, infoAvgLow, List.find?, List.filter]
    norm_num [resolveROE, dictGet, List.find?, safeGetNumeric]
  · have h1 : dictGet infoAvgLow "平均ROE" = some (.num 10) := rfl
    have h2 : dictGet infoAvgLow "当前ROE" = some (.num 16) := rfl
    simp only [specChainSome, List.any_cons, List.any_nil, h1, h2,
      safeGetNumeric, Bool.or_eq_true]
    norm_num

/-- C9 (amended): when an ROE threshold `r` is set, each candidate's ROE
is resolved by the ordered fallback chain 平均ROE → 当前ROE → ROE, the
chain stopping at the FIRST field that yields a numeric value; the
instrument is retained iff that first resolved value is ≥ `r` (a later
chain value meeting `r` cannot rescue an earlier one below it), and an
instrument with no resolvable value — or no registry entry at all — is
dropped, not treated as passing. -/
theorem roe_threshold_amended (r : ℚ) (allInfo : AllStockInfo)
    (codes : List String) (code : String) :
    code ∈ roeFilterStep r allInfo codes ↔
      code ∈ codes ∧ ∃ info, infoGet allInfo code = some info ∧
        ∃ v, resolveROE info = some v ∧ r ≤ v := by
  simp only [roeFilterStep, List.mem_filter]
  refine and_congr_right fun _ => ?_
  rcases h : infoGet allInfo code with _ | info
  · simp
  · rcases h2 : resolveROE info with _ | v <;> simp [h2]

/-- C3 counterexample: the legacy `stock_filter` keeps a result row whose
industry is unknown (empty) even under a non-empty industry allow-list,
because the skip condition requires a non-empty `所属行业`; the manager
path drops the same instrument. -/
theorem industry_filter_counterexample :
    legacyIndustryKeep ["银行".toList] [] = true ∧
    managerIndustryStep ["银行".toList] [("000001", [])] ["000001"] = [] := by
  decide

/-- C3 (amended): in `StockDataManager.filter_stocks` (the path behind
the app's `stock_filter_new`) a non-empty allow-list retains exactly the
codes whose registry entry carries an industry that is a member of the
list, unknown industries being dropped; but in the legacy
`stock_filter`, a row with an unknown (empty) industry is RETAINED by
default — a row is dropped only when its industry is known and outside
the list. -/
theorem industry_filter_amended :
    (∀ (f : List (List Char)) (allInfo : AllStockInfo) (codes : List String)
        (code : String), f ≠ [] →
      (code ∈ managerIndustryStep f allInfo codes ↔
        code ∈ codes ∧ ∃ info, infoGet allInfo code = some info ∧
          ∃ ind, dictGet info "行业" = some (.str ind) ∧ ind ∈ f)) ∧
    (∀ (f : List (List Char)) (ind : List Char),
      legacyIndustryKeep f ind = true ↔ f = [] ∨ ind = [] ∨ ind ∈ f) := by
  constructor
  · intro f allInfo codes code hf
    rw [managerIndustryStep, if_neg (by simpa using hf)]
    simp only [List.mem_filter]
    refine and_congr_right fun _ => ?_
    rcases h : infoGet allInfo code with _ | info
    · simp
    · rcases h2 : dictGet info "行业" with _ | v
      · simp [h2]
      · rcases v with q | s | _ <;> simp [h2]
  · intro f ind
    unfold legacyIndustryKeep
    split_ifs with h
    · simp only [Bool.false_eq_true, false_iff]
      push_neg
      exact h
    · push_neg at h
      simp only [true_iff]
      by_cases hf : f = []
      · exact Or.inl hf
      · by_cases hi : ind = []
        · exact Or.inr (Or.inl hi)
        · exact Or.inr (Or.inr (h hf hi))

/-- C3 witness: applying the manager-side characterization on a concrete
registry: code `000001` with industry `银行` survives the allow-list
`[银行]`. -/
theorem industry_filter_amended_witness :
    "000001" ∈ managerIndustryStep ["银行".toList]
      [("000001", [("行业", .str "银行".toList)])] ["000001"] :=
  (industry_filter_amended.1 ["银行".toList]
      [("000001", [("行业", .str "银行".toList)])] ["000001"] "000001"
      (by decide)).mpr
    ⟨by decide, [("行业", .str "银行".toList)], rfl, "银行".toList, rfl, by decide⟩

/-- C4: evaluated at the failing input, the candidate-set fold of
`StockDataManager.filter_stocks` does not compute the intersection: a
successfully loaded first category with an empty code set is treated as
"no accumulator yet", so the second category's whole set survives —
`{000001}` instead of the empty intersection — and the query then
returns a non-empty table.  The fail-fast half of the claim does hold: a
request whose load fails makes the whole query empty. -/
theorem intersection_bug_eval :
    candidateCodes [("A", some []), ("B", some ["000001"])] = some ["000001"] ∧
    interAll [[], ["000001"]] = [] ∧
    candidateCodes [("A", none), ("B", some ["000001"])] = none := by
  decide

/-! ### Cache layer

Shallow embedding of `StockDataManager.load_stock_data` and
`StockDataManager._load_from_cache` (`stock_data_manager.py` lines
54-106 and 144-209) for one cache key.  Calendar dates are numbered by
`ℕ`; a persisted artifact carries its creation date and either a
well-formed dataset or corruption (unpickling failure). -/

/-- The parsed state of one category dataset (its code set). -/
structure Dataset where
  codes : List String
deriving DecidableEq, Repr

/-- A persisted cache artifact: well-formed or corrupt. -/
inductive CacheContent
  | good (d : Dataset)
  | corrupt
deriving DecidableEq, Repr

/-- A cache file on disk with its creation (mtime) date. -/
structure CacheFile where
  created : ℕ
  content : CacheContent
deriving DecidableEq, Repr

/-- The state visible to `load_stock_data` for one instance key:
today's date, the cache file (if any), the in-memory instance (if already
loaded), and the source file's parse result (`none` when the file is
missing, unreadable, empty, or has no code column, i.e. `load()` fails). -/
structure ManagerWorld where
  today : ℕ
  cacheFile : Option CacheFile
  memory : Option Dataset
  source : Option Dataset
deriving DecidableEq, Repr

/-- The observable outcome of `load_stock_data`: the returned boolean,
the cache file afterwards, the in-memory instance afterwards, whether the
source-parsing path ran (`StockDataFactory` + `load()`), and whether the
result came from the disk cache. -/
structure LoadOutcome where
  success : Bool
  cacheAfter : Option CacheFile
  memoryAfter : Option Dataset
  triedSource : Bool
  fromCache : Bool
deriving DecidableEq, Repr

/-- `StockDataManager._load_from_cache` (`stock_data_manager.py` lines
144-189): no file is a miss; a file not created today is a miss (left in
place); a well-formed file created today is a hit, loading it into
memory; a corrupt file created today fails to unpickle, is deleted, and
is a miss.  Returns (hit?, cache file afterwards, memory afterwards). -/
def loadFromCache (w : ManagerWorld) : Bool × Option CacheFile × Option Dataset :=
  match w.cacheFile with
  | none => (false, none, w.memory)
  | some cf =>
    if cf.created ≠ w.today then (false, some cf, w.memory)
    else
      match cf.content with
      | .good d => (true, some cf, some d)
      | .corrupt => (false, none, w.memory)

/-- `StockDataManager.load_stock_data` (`stock_data_manager.py` lines
54-106): an already-loaded in-memory instance short-circuits; otherwise
the disk cache is consulted; on a miss the source file is parsed and, on
success, the result is stored in memory and written back to the cache
(created today). -/
def loadStockData (w : ManagerWorld) : LoadOutcome :=
  match w.memory with
  | some d => ⟨true, w.cacheFile, some d, false, false⟩
  | none =>
    match loadFromCache w with
    | (true, cf, mem) => ⟨true, cf, mem, false, true⟩
    | (false, cf, mem) =>
      match w.source with
      | some d => ⟨true, some ⟨w.today, .good d⟩, some d, true, false⟩
      | none => ⟨false, cf, mem, true, false⟩

/-- C5: with no in-memory instance, a persisted artifact is honoured iff
its creation date is the current calendar date: an artifact created on an
earlier (or later) date is a miss and the source-parsing path runs,
while a well-formed artifact created today is returned from the cache
without touching the source. -/
theorem cache_day_validity (w : ManagerWorld) (cf : CacheFile)
    (hm : w.memory = none) (hc : w.cacheFile = some cf) :
    (cf.created ≠ w.today →
      (loadStockData w).fromCache = false ∧ (loadStockData w).triedSource = true) ∧
    (∀ d, cf.created = w.today → cf.content = .good d →
      loadStockData w = ⟨true, some cf, some d, false, true⟩) := by
  constructor
  · intro h
    simp only [loadStockData, loadFromCache, hm, hc, if_pos h]
    rcases hs : w.source with _ | d <;> simp
  · intro d h1 h2
    simp [loadStockData, loadFromCache, hm, hc, h1, h2]

/-- C5 witness: a well-formed artifact created today (day 5) is served
from the cache without re-parsing the source. -/
theorem cache_day_validity_witness :
    loadStockData ⟨5, some ⟨5, .good ⟨["000001"]⟩⟩, none, some ⟨["000002"]⟩⟩ =
      ⟨true, some ⟨5, .good ⟨["000001"]⟩⟩, some ⟨["000001"]⟩, false, true⟩ :=
  (cache_day_validity ⟨5, some ⟨5, .good ⟨["000001"]⟩⟩, none, some ⟨["000002"]⟩⟩
    ⟨5, .good ⟨["000001"]⟩⟩ rfl rfl).2 ⟨["000001"]⟩ rfl rfl

/-- C6: when the artifact attempted today is corrupt (deserialization
fails) and the source parses to `d`, `_load_from_cache` deletes the
artifact and reports a miss without raising, and `load_stock_data` falls
through to a fresh parse, returns success with the re-parsed dataset
`d`, and writes a fresh artifact back; no corruption error reaches the
caller (the embedded operations are total). -/
theorem cache_corrupt_recovery (w : ManagerWorld) (cf : CacheFile) (d : Dataset)
    (hm : w.memory = none) (hc : w.cacheFile = some cf)
    (hcreated : cf.created = w.today) (hcorrupt : cf.content = .corrupt)
    (hsource : w.source = some d) :
    loadFromCache w = (false, none, none) ∧
    loadStockData w = ⟨true, some ⟨w.today, .good d⟩, some d, true, false⟩ := by
  have hlfc : loadFromCache w = (false, none, none) := by
    simp [loadFromCache, hc, hcreated, hcorrupt, hm]
  refine ⟨hlfc, ?_⟩
  simp [loadStockData, hm, hlfc, hsource]

/-- C6 witness: corrupt artifact created today (day 7), source parses to
`{000003}`: recovery re-parses and re-caches. -/
theorem cache_corrupt_recovery_witness :
    loadStockData ⟨7, some ⟨7, .corrupt⟩, none, some ⟨["000003"]⟩⟩ =
      ⟨true, some ⟨7, .good ⟨["000003"]⟩⟩, some ⟨["000003"]⟩, true, false⟩ :=
  (cache_corrupt_recovery ⟨7, some ⟨7, .corrupt⟩, none, some ⟨["000003"]⟩⟩
    ⟨7, .corrupt⟩ ⟨["000003"]⟩ rfl rfl rfl rfl rfl).2

/-! ### Error policy at the public entry points -/

/-- The fund-data environment seen by the entry validation of
`fund_filter` (`fund_filter.py` lines 34-45): the available date
directories (descending) and the set of existing data directories. -/
structure FundDataWorld where
  availableDates : List String
  existingDirs : List String
deriving DecidableEq, Repr

/-- The date-resolution prologue of `fund_filter` (`fund_filter.py`
lines 34-45): with no requested date, the newest available date is used,
raising `ValueError` when none exists; then the resolved date's data
directory must exist, else `ValueError` is raised. -/
def fundResolveDate (requested : Option String) (w : FundDataWorld) :
    Except String String :=
  match requested with
  | none =>
    match w.availableDates with
    | [] => .error "未找到可用的基金数据"
    | d :: _ =>
      if d ∈ w.existingDirs then .ok d
      else .error ("未找到日期 " ++ d ++ " 的基金数据")
  | some d =>
    if d ∈ w.existingDirs then .ok d
    else .error ("未找到日期 " ++ d ++ " 的基金数据")

/-- The date the prologue settles on before the existence check. -/
def requestedOrLatest (requested : Option String) (w : FundDataWorld) :
    Option String :=
  match requested with
  | some d => some d
  | none => w.availableDates.head?

/-- C7 counterexample: the fund entry point raises (`ValueError`) under a
purely data-driven condition — no fund data directories present — while
requesting an undefined stock category does NOT fail loudly: the stock
query silently returns the empty table. -/
theorem error_policy_counterexample :
    fundResolveDate none ⟨[], []⟩ = .error "未找到可用的基金数据" ∧
    candidateCodes [("未定义类型", none)] = none :=
  ⟨rfl, rfl⟩

/-- C7 (amended): the stock path never raises — a failed or undefined
category silently makes `filter_stocks` return the empty table — while
the fund path's date-resolution prologue raises `ValueError` exactly when
no date is requested and no fund data dates are available, or when the
resolved date's data directory is missing. -/
theorem error_policy_amended :
    (∀ (req : Option String) (w : FundDataWorld),
      (∃ e, fundResolveDate req w = .error e) ↔
        (req = none ∧ w.availableDates = []) ∨
        (∃ d, requestedOrLatest req w = some d ∧ d ∉ w.existingDirs)) ∧
    (∀ (k : String) (rest : List (String × Option (List String))),
      candidateCodes ((k, none) :: rest) = none) := by
  constructor
  · intro req w
    rcases req with _ | d0
    · rcases hd : w.availableDates with _ | ⟨d, ds⟩
      · simp [fundResolveDate, requestedOrLatest, hd]
      · by_cases hmem : d ∈ w.existingDirs <;>
          simp [fundResolveDate, requestedOrLatest, hd, hmem]
    · by_cases hmem : d0 ∈ w.existingDirs <;>
        simp [fundResolveDate, requestedOrLatest, hmem]
  · intro k rest
    simp [candidateCodes]

end IFM
